import Mathlib

/-!
Verification development for the `ensi-local-ctl` (elc) workspace controller.

The Go sources embedded here are `src/commands.go` (command surface) and the
home-config store (`HomeConfig`, `LoadHomeConfig`, `SaveHomeConfig`,
`CheckHomeConfigIsEmpty`, `AddWorkspace`, `GetCurrentWsPath`, `findWorkspace`).
File I/O is modelled by an explicit `Disk` state recording the persisted
document and the ordered sequence of save calls; YAML (un)marshalling is
treated as the identity on already-parsed documents, and a read fails exactly
when the file is absent.  The `NeedHelp` guard at the top of every command
prints help text and returns without touching any state; it is elided from the
command cores (all modelled invocations are non-help invocations).
-/

deriving instance DecidableEq for Except

namespace Elc

/-- One registered workspace entry (Go `HomeConfigItem`: `Name`, `Path`). -/
structure HomeConfigItem where
  Name : String
  Path : String
deriving Repr, DecidableEq

/-- The home configuration document (Go `HomeConfig`).  `Path` is the location
of the backing file and is not serialized. -/
structure HomeConfig where
  Path : String
  CurrentWorkspace : String
  UpdateCommand : String
  Workspaces : List HomeConfigItem
deriving Repr, DecidableEq

/-- Go constant `defaultUpdateCommand` (content irrelevant to the claims). -/
def defaultUpdateCommand : String :=
  "curl -sSL get.sh | sudo bash"

/-- The modelled file system: the persisted home-config document (if the file
exists) together with the ordered log of every `SaveHomeConfig` write. -/
structure Disk where
  file : Option HomeConfig
  writes : List HomeConfig
deriving Repr, DecidableEq

/-- Go `SaveHomeConfig`: marshals and writes the document (always succeeds in
the model); the write is appended to the log. -/
def SaveHomeConfig (homeConfig : HomeConfig) (d : Disk) : Disk :=
  { file := some homeConfig, writes := d.writes ++ [homeConfig] }

/-- Go `LoadHomeConfig`: reads the file (fails iff absent), unmarshals, and
sets the `Path` field to the given config path. -/
def LoadHomeConfig (configPath : String) (d : Disk) : Except String HomeConfig :=
  match d.file with
  | none => .error "no such file"
  | some doc => .ok { doc with Path := configPath }

/-- Go `CheckHomeConfigIsEmpty`: if the file exists, do nothing; otherwise
write a default document (`Path` set, default update command, empty current
workspace, empty workspace list). -/
def CheckHomeConfigIsEmpty (configPath : String) (d : Disk) : Disk :=
  if d.file.isSome then d
  else SaveHomeConfig
    { Path := configPath, CurrentWorkspace := "",
      UpdateCommand := defaultUpdateCommand, Workspaces := [] } d

/-- Go `(*HomeConfig).AddWorkspace`: appends unconditionally and persists. -/
def HomeConfig.AddWorkspace (hc : HomeConfig) (name path : String) (d : Disk) :
    HomeConfig × Disk :=
  let hc' := { hc with Workspaces := hc.Workspaces ++ [⟨name, path⟩] }
  (hc', SaveHomeConfig hc' d)

/-- Go `(*HomeConfig).GetCurrentWsPath`. -/
def HomeConfig.GetCurrentWsPath (hc : HomeConfig) : Except String String :=
  if hc.CurrentWorkspace == "" then
    .error "current workspace is not set"
  else
    match hc.Workspaces.find? (fun hci => hci.Name == hc.CurrentWorkspace) with
    | some hci => .ok hci.Path
    | none => .error "current workspace is bad"

/-- Go `(*HomeConfig).findWorkspace`: first entry with the given name. -/
def HomeConfig.findWorkspace (hc : HomeConfig) (name : String) :
    Option HomeConfigItem :=
  hc.Workspaces.find? (fun workspace => workspace.Name == name)

/-- Go `checkAndLoadHC`: ensure the file exists (creating a default document
if absent), then load it. -/
def checkAndLoadHC (homeConfigPath : String) (d : Disk) :
    Except String HomeConfig × Disk :=
  let d1 := CheckHomeConfigIsEmpty homeConfigPath d
  (LoadHomeConfig homeConfigPath d1, d1)

/-- Go `CmdWorkspaceAdd` (help guard elided): ensure+load, check arity, reject
a duplicate name, append+persist, and if no current workspace was set, select
the new one and persist again. -/
def CmdWorkspaceAdd (homeConfigPath : String) (args : List String) (d : Disk) :
    Except String Unit × Disk :=
  match checkAndLoadHC homeConfigPath d with
  | (.error e, d1) => (.error e, d1)
  | (.ok hc, d1) =>
    if args.length ≠ 2 then
      (.error "command requires exactly 2 arguments", d1)
    else
      let name := args[0]!
      let wsPath := args[1]!
      match hc.findWorkspace name with
      | some _ => (.error ("workspace with name " ++ name ++ " already exists"), d1)
      | none =>
        let (hc', d2) := hc.AddWorkspace name wsPath d1
        if hc'.CurrentWorkspace == "" then
          let hc'' := { hc' with CurrentWorkspace := name }
          (.ok (), SaveHomeConfig hc'' d2)
        else
          (.ok (), d2)

/-- Go `CmdWorkspaceSelect` (help guard elided): ensure+load, check arity,
require the name to exist, reassign the current workspace and persist. -/
def CmdWorkspaceSelect (homeConfigPath : String) (args : List String) (d : Disk) :
    Except String Unit × Disk :=
  match checkAndLoadHC homeConfigPath d with
  | (.error e, d1) => (.error e, d1)
  | (.ok hc, d1) =>
    if args.length ≠ 1 then
      (.error "command requires exactly 1 argument", d1)
    else
      let name := args[0]!
      match hc.findWorkspace name with
      | none => (.error ("workspace with name " ++ name ++ " is not defined"), d1)
      | some _ =>
        (.ok (), SaveHomeConfig { hc with CurrentWorkspace := name } d1)

/-- A dependency edge of a service (spec `dependsOn: [{name, mode}]`). -/
structure DepRef where
  name : String
  mode : String
deriving Repr, DecidableEq

/-- Modelled from the spec: the `ServiceDef` entry of the workspace manifest
(`{name, path, dependsOn}`; the source file defining it is not under `src/`).
Paths are modelled as segment lists; ancestor-or-equal is list prefix. -/
structure ServiceDef where
  name : String
  path : List String
  dependsOn : List DepRef
deriving Repr, DecidableEq

/-- The module entry of the workspace manifest (Go `ModuleConfig`, whose
fields `HostedIn` and `ExecPath` are read by `CmdServiceExec`). -/
structure ModuleConfig where
  Name : String
  HostedIn : String
  ExecPath : List String
deriving Repr, DecidableEq

/-- The per-workspace manifest (Go `MainConfig`), with the invocation's
working directory fixing the resolution context. -/
structure MainConfig where
  services : List ServiceDef
  modules : List ModuleConfig
  invocationCwd : List String
deriving Repr, DecidableEq

/-- Modelled from the spec: `GetAllSvcNames` (not under `src/`) — "every
service name present in the manifest, processed in manifest declaration
order". -/
def MainConfig.GetAllSvcNames (cfg : MainConfig) : List String :=
  cfg.services.map (fun s => s.name)

/-- Modelled from the spec: `FindServiceByPath` (not under `src/`) — the
single service whose declared root path is an ancestor of (or equal to) the
working directory; the longest-matching prefix wins; ties fail as ambiguous;
no match is a not-found error. -/
def MainConfig.FindServiceByPath (cfg : MainConfig) : Except String String :=
  let cands := cfg.services.filter (fun s => s.path.isPrefixOf cfg.invocationCwd)
  match cands with
  | [] => .error "service not found by path"
  | _ =>
    let m := (cands.map (fun s => s.path.length)).foldl max 0
    match cands.filter (fun s => s.path.length == m) with
    | [s] => .ok s.name
    | _ => .error "ambiguous service resolution"

/-- Modelled from the spec: `FindModuleByPath` (not under `src/`) — scan the
module `ExecPath` entries under the same ancestor/longest-prefix rule. -/
def MainConfig.FindModuleByPath (cfg : MainConfig) : Except String ModuleConfig :=
  let cands := cfg.modules.filter (fun m => m.ExecPath.isPrefixOf cfg.invocationCwd)
  match cands with
  | [] => .error "module not found by path"
  | _ =>
    let len := (cands.map (fun m => m.ExecPath.length)).foldl max 0
    match cands.filter (fun m => m.ExecPath.length == len) with
    | [m] => .ok m
    | _ => .error "ambiguous module resolution"

/-- Modelled from the spec: `FindModuleByName` (not under `src/`) — the
module with the given name, a not-found error otherwise. -/
def MainConfig.FindModuleByName (cfg : MainConfig) (name : String) :
    Except String ModuleConfig :=
  match cfg.modules.find? (fun m => m.Name == name) with
  | some m => .ok m
  | none => .error "module not found"

/-- Modelled from the spec: `renderPath` (not under `src/`) — the spec passes
the module's "declared `execPath` (rendered)" without fixing any template
semantics, so rendering is modelled as the identity on the declared path. -/
def MainConfig.renderPath (_cfg : MainConfig) (p : List String) :
    Except String (List String) :=
  .ok p

/-- The resolution core of Go `CmdServiceExec` (commands.go lines 534-558):
given the `--svc` option value (`""` when absent), produce the service name
and working directory passed to `svc.Exec`.  The Go declares
`var mdl *ModuleConfig`; in the explicit-name branch the statement
`mdl, err := cfg.FindModuleByName(...)` declares a NEW `mdl` shadowing the
outer one, so the trailing `if mdl != nil` working-directory assignment only
ever fires in the path-resolution branch — the model reproduces exactly
that.  `none` for the working directory models the Go zero value `""`
(unset). -/
def CmdServiceExecResolve (cfg : MainConfig) (svcName0 : String) :
    Except String (String × Option (List String)) :=
  let step : Except String (Option ModuleConfig × String) :=
    if svcName0 == "" then
      match cfg.FindModuleByPath with
      | .ok m => .ok (some m, m.HostedIn)
      | .error _ =>
        match cfg.FindServiceByPath with
        | .ok n => .ok (none, n)
        | .error e => .error e
    else
      match cfg.FindModuleByName svcName0 with
      | .ok m => .ok (none, m.HostedIn)
      | .error _ => .ok (none, svcName0)
  match step with
  | .error e => .error e
  | .ok (mdl, svcName) =>
    match mdl with
    | some m =>
      match cfg.renderPath m.ExecPath with
      | .ok wd => .ok (svcName, some wd)
      | .error e => .error e
    | none => .ok (svcName, none)

/-- The named-target loop shared by `CmdServiceStop` and `CmdServiceDestroy`:
process the names strictly in order, delegating each to the fallible per-name
action (`CreateFromSvcName` followed by `svc.Stop()` / `svc.Destroy()`),
aborting at the first failure.  Returns the names actually dispatched and
the outcome. -/
def runSeq (act : String → Except String Unit) :
    List String → List String × Except String Unit
  | [] => ([], .ok ())
  | n :: rest =>
    match act n with
    | .error e => ([n], .error e)
    | .ok _ =>
      let (calls, r) := runSeq act rest
      (n :: calls, r)

/-- The target-selection-and-dispatch core of Go `CmdServiceStop` (and the
structurally identical `CmdServiceDestroy`), commands.go lines 261-304: with
`--all` the target list is `GetAllSvcNames`, otherwise the raw argument list;
when that list is empty the sole target is the path-resolved service.  The
per-name container action is the abstract delegate `act`. -/
def CmdServiceStopCore (cfg : MainConfig) (act : String → Except String Unit)
    (all : Bool) (args : List String) : List String × Except String Unit :=
  let svcNames := if all then cfg.GetAllSvcNames else args
  if svcNames.length > 0 then
    runSeq act svcNames
  else
    match cfg.FindServiceByPath with
    | .error e => ([], .error e)
    | .ok svcName =>
      match act svcName with
      | .error e => ([svcName], .error e)
      | .ok _ => ([svcName], .ok ())

/-- Errors of the dependency planner (spec §4.3 / §7). -/
inductive PlanError where
  | cyclicDependency (name : String)
  | serviceNotFound (name : String)
  | fuelExhausted
deriving Repr, DecidableEq

/-- Sequencing of dependency visits: visit each dependency in declaration
order, propagating the first error, concatenating the planned orders. -/
def visitList (visit : String → Except PlanError (List String)) :
    List String → Except PlanError (List String)
  | [] => .ok []
  | d :: ds =>
    match visit d with
    | .error e => .error e
    | .ok l1 =>
      match visitList visit ds with
      | .error e => .error e
      | .ok l2 => .ok (l1 ++ l2)

/-- Modelled from the spec: the depth-first traversal of the start/restart
dependency planner (not under `src/`).  `path` is the chain of ancestors on
the current traversal path; revisiting a node still on it is a
`cyclicDependency` failure, an undeclared service a `serviceNotFound`
failure; otherwise the filtered dependencies are visited before the node
itself.  The fuel argument only bounds the recursion depth; a caller passing
`names.length + 1` can never see `fuelExhausted` (proved below). -/
def visitDeps (deps : String → List String) (names : List String) :
    Nat → List String → String → Except PlanError (List String)
  | 0, _, _ => .error .fuelExhausted
  | fuel + 1, path, n =>
    if n ∈ path then .error (.cyclicDependency n)
    else if n ∈ names then
      match visitList (visitDeps deps names fuel (n :: path)) (deps n) with
      | .error e => .error e
      | .ok ls => .ok (ls ++ [n])
    else .error (.serviceNotFound n)

/-- Modelled from the spec: the dependency edges actually traversed for a
start with the given mode/force, from a service's `dependsOn` list — a
dependency whose mode differs from the requested mode is skipped entirely,
and unless `force` is set, a dependency already reported running by the
container engine (`running`) is skipped as satisfied. -/
def serviceDeps (cfg : MainConfig) (mode : String) (force : Bool)
    (running : String → Bool) (n : String) : List String :=
  match cfg.services.find? (fun s => s.name == n) with
  | none => []
  | some s =>
    ((s.dependsOn.filter (fun d => d.mode == mode && (force || !running d.name))).map
      (fun d => d.name))

/-- Modelled from the spec: the dependency planner entry point — the ordered
sequence of services to bring up for starting `target`, every filtered
dependency before its dependent, or a planning error. -/
def planStart (cfg : MainConfig) (mode : String) (force : Bool)
    (running : String → Bool) (target : String) : Except PlanError (List String) :=
  visitDeps (serviceDeps cfg mode force running) cfg.GetAllSvcNames
    (cfg.services.length + 1) [] target

/-- Reachability along planner edges: `Reaches deps a b` when `b` can be
reached from `a` by following zero or more dependency edges. -/
inductive Reaches (deps : String → List String) : String → String → Prop
  | refl (n : String) : Reaches deps n n
  | step (a b c : String) (hab : b ∈ deps a) (hbc : Reaches deps b c) :
      Reaches deps a c

/-- A cycle reachable from `t`: some node `m` reachable from `t` lies on a
dependency cycle (one of its dependencies reaches it back). -/
def HasReachableCycle (deps : String → List String) (t : String) : Prop :=
  ∃ m d, Reaches deps t m ∧ d ∈ deps m ∧ Reaches deps d m

/-! ## Theorems -/

/-- C4: for every home-config state in which a workspace named `n` is already
registered, `CmdWorkspaceAdd` with name `n` reports a name-collision error
and leaves the registry unchanged — the returned disk state (persisted
document and write log) is exactly the input state, so no append and no
write occurs. -/
theorem cmdWorkspaceAdd_duplicate_rejected
    (p n wsPath : String) (doc : HomeConfig) (d : Disk)
    (hfile : d.file = some doc)
    (hdup : doc.findWorkspace n ≠ none) :
    ∃ e, CmdWorkspaceAdd p [n, wsPath] d = (.error e, d) := by
  refine ⟨"workspace with name " ++ n ++ " already exists", ?_⟩
  unfold CmdWorkspaceAdd checkAndLoadHC CheckHomeConfigIsEmpty LoadHomeConfig
  simp only [hfile, Option.isSome_some, if_true]
  rcases hw : doc.findWorkspace n with _ | w
  · exact absurd hw hdup
  · have hw' : HomeConfig.findWorkspace { doc with Path := p } n = some w := hw
    simp [hw']

/-- C4 witness. -/
theorem cmdWorkspaceAdd_duplicate_rejected_witness :
    ∃ e, CmdWorkspaceAdd "hc" ["a", "q"]
        ⟨some ⟨"hc", "a", "u", [⟨"a", "w"⟩]⟩, []⟩ =
      (.error e, ⟨some ⟨"hc", "a", "u", [⟨"a", "w"⟩]⟩, []⟩) :=
  cmdWorkspaceAdd_duplicate_rejected "hc" "a" "q" ⟨"hc", "a", "u", [⟨"a", "w"⟩]⟩
    ⟨some ⟨"hc", "a", "u", [⟨"a", "w"⟩]⟩, []⟩ rfl (by decide)

/-- C5: a successful `CmdWorkspaceAdd` on the very first workspace (empty
registry, hence — by the registry invariant — no current workspace) performs
exactly two persist writes: first the append with the current workspace still
empty, then a second write setting the new workspace as current; whereas when
a current workspace is already set, a successful add performs exactly one
persist write and leaves `CurrentWorkspace` unchanged. -/
theorem cmdWorkspaceAdd_write_sequence
    (p n wsPath : String) (doc : HomeConfig) (d : Disk)
    (hfile : d.file = some doc) :
    ((doc.Workspaces = [] ∧ doc.CurrentWorkspace = "") →
      CmdWorkspaceAdd p [n, wsPath] d =
        (.ok (),
          { file := some ⟨p, n, doc.UpdateCommand, [⟨n, wsPath⟩]⟩,
            writes := d.writes ++
              [⟨p, "", doc.UpdateCommand, [⟨n, wsPath⟩]⟩,
               ⟨p, n, doc.UpdateCommand, [⟨n, wsPath⟩]⟩] })) ∧
    ((doc.CurrentWorkspace ≠ "" ∧ doc.findWorkspace n = none) →
      CmdWorkspaceAdd p [n, wsPath] d =
        (.ok (),
          { file := some ⟨p, doc.CurrentWorkspace, doc.UpdateCommand,
              doc.Workspaces ++ [⟨n, wsPath⟩]⟩,
            writes := d.writes ++
              [⟨p, doc.CurrentWorkspace, doc.UpdateCommand,
                doc.Workspaces ++ [⟨n, wsPath⟩]⟩] })) := by
  constructor
  · rintro ⟨hws, hcur⟩
    unfold CmdWorkspaceAdd checkAndLoadHC CheckHomeConfigIsEmpty LoadHomeConfig
    simp only [hfile, Option.isSome_some, if_true]
    have hfw : HomeConfig.findWorkspace { doc with Path := p } n = none := by
      simp [HomeConfig.findWorkspace, hws]
    simp [HomeConfig.findWorkspace, HomeConfig.AddWorkspace, SaveHomeConfig, hws,
      hcur]
  · rintro ⟨hcur, hfw0⟩
    unfold CmdWorkspaceAdd checkAndLoadHC CheckHomeConfigIsEmpty LoadHomeConfig
    simp only [hfile, Option.isSome_some, if_true]
    have hfw : HomeConfig.findWorkspace { doc with Path := p } n = none := hfw0
    simp [hfw, HomeConfig.AddWorkspace, SaveHomeConfig, hcur]

/-- C5 witness: both branches at concrete inputs — an empty registry gets two
writes and the new workspace becomes current; a registry with a current
workspace gets one write and an unchanged current workspace. -/
theorem cmdWorkspaceAdd_write_sequence_witness :
    (CmdWorkspaceAdd "hc" ["a", "pa"] ⟨some ⟨"hc", "", "u", []⟩, []⟩ =
      (.ok (),
        { file := some ⟨"hc", "a", "u", [⟨"a", "pa"⟩]⟩,
          writes := [⟨"hc", "", "u", [⟨"a", "pa"⟩]⟩,
                     ⟨"hc", "a", "u", [⟨"a", "pa"⟩]⟩] })) ∧
    (CmdWorkspaceAdd "hc" ["b", "pb"] ⟨some ⟨"hc", "a", "u", [⟨"a", "pa"⟩]⟩, []⟩ =
      (.ok (),
        { file := some ⟨"hc", "a", "u", [⟨"a", "pa"⟩, ⟨"b", "pb"⟩]⟩,
          writes := [⟨"hc", "a", "u", [⟨"a", "pa"⟩, ⟨"b", "pb"⟩]⟩] })) :=
  ⟨(cmdWorkspaceAdd_write_sequence "hc" "a" "pa" ⟨"hc", "", "u", []⟩
      ⟨some ⟨"hc", "", "u", []⟩, []⟩ rfl).1 ⟨rfl, rfl⟩,
   (cmdWorkspaceAdd_write_sequence "hc" "b" "pb" ⟨"hc", "a", "u", [⟨"a", "pa"⟩]⟩
      ⟨some ⟨"hc", "a", "u", [⟨"a", "pa"⟩]⟩, []⟩ rfl).2 ⟨by decide, by decide⟩⟩

/-- C6: `GetCurrentWsPath` fails with the not-configured error exactly when
`CurrentWorkspace` is empty, fails with the corrupt-state error exactly when
`CurrentWorkspace` is non-empty but names no entry of `Workspaces`, and
otherwise returns the path of the (first) workspace whose name equals
`CurrentWorkspace`; the violated invariant is reported, never repaired. -/
theorem getCurrentWsPath_trichotomy (hc : HomeConfig) :
    (hc.GetCurrentWsPath = .error "current workspace is not set" ↔
      hc.CurrentWorkspace = "") ∧
    (hc.GetCurrentWsPath = .error "current workspace is bad" ↔
      (hc.CurrentWorkspace ≠ "" ∧
        hc.Workspaces.find? (fun w => w.Name == hc.CurrentWorkspace) = none)) ∧
    (∀ w, hc.CurrentWorkspace ≠ "" →
      hc.Workspaces.find? (fun w => w.Name == hc.CurrentWorkspace) = some w →
      hc.GetCurrentWsPath = .ok w.Path ∧ w.Name = hc.CurrentWorkspace) := by
  have hne : ("current workspace is not set" : String) ≠ "current workspace is bad" := by
    decide
  unfold HomeConfig.GetCurrentWsPath
  by_cases hcur : hc.CurrentWorkspace = ""
  · simp only [hcur, beq_self_eq_true, if_true]
    refine ⟨by simp, ?_, ?_⟩
    · constructor
      · intro h
        exact absurd (Except.error.inj h) hne
      · rintro ⟨h, _⟩
        exact absurd rfl h
    · intro w hw
      exact absurd rfl hw
  · have hb : (hc.CurrentWorkspace == "") = false := by
      simpa using hcur
    simp only [hb, Bool.false_eq_true, if_false]
    rcases hf : hc.Workspaces.find? (fun w => w.Name == hc.CurrentWorkspace) with _ | w
    all_goals rw [hf]
    · refine ⟨?_, ?_, ?_⟩
      · constructor
        · intro h
          exact absurd (Except.error.inj h).symm hne
        · intro h
          exact absurd h hcur
      · exact ⟨fun _ => ⟨hcur, rfl⟩, fun _ => rfl⟩
      · intro w _ hw
        simp at hw
    · refine ⟨by simp [hcur], by simp [hcur], ?_⟩
      intro w' _ hw'
      cases Option.some.inj hw'
      have hname := List.find?_some hf
      exact ⟨rfl, by simpa using hname⟩

/-- C6 witness: the three cases at concrete registries. -/
theorem getCurrentWsPath_trichotomy_witness :
    (HomeConfig.GetCurrentWsPath ⟨"hc", "a", "u", [⟨"a", "pa"⟩, ⟨"a", "px"⟩]⟩ =
      .ok "pa") ∧
    (HomeConfig.GetCurrentWsPath ⟨"hc", "", "u", [⟨"a", "pa"⟩]⟩ =
      .error "current workspace is not set") ∧
    (HomeConfig.GetCurrentWsPath ⟨"hc", "b", "u", [⟨"a", "pa"⟩]⟩ =
      .error "current workspace is bad") :=
  ⟨((getCurrentWsPath_trichotomy ⟨"hc", "a", "u", [⟨"a", "pa"⟩, ⟨"a", "px"⟩]⟩).2.2
      ⟨"a", "pa"⟩ (by decide) (by decide)).1,
   (getCurrentWsPath_trichotomy ⟨"hc", "", "u", [⟨"a", "pa"⟩]⟩).1.2 rfl,
   (getCurrentWsPath_trichotomy ⟨"hc", "b", "u", [⟨"a", "pa"⟩]⟩).2.1.2
     ⟨by decide, by decide⟩⟩

/-- C7: `CheckHomeConfigIsEmpty` writes the default document (default update
command, empty workspace list, empty current workspace) exactly when the
backing file is absent; when the file exists it performs no write and leaves
the state unchanged. -/
theorem checkHomeConfigIsEmpty_frame (p : String) (d : Disk) :
    (d.file = none →
      CheckHomeConfigIsEmpty p d =
        { file := some ⟨p, "", defaultUpdateCommand, []⟩,
          writes := d.writes ++ [⟨p, "", defaultUpdateCommand, []⟩] }) ∧
    (d.file.isSome → CheckHomeConfigIsEmpty p d = d) := by
  constructor
  · intro h
    unfold CheckHomeConfigIsEmpty SaveHomeConfig
    simp [h]
  · intro h
    unfold CheckHomeConfigIsEmpty
    simp [h]

/-- C7 witness: an absent file gets the default document written; an existing
document is left untouched with no write. -/
theorem checkHomeConfigIsEmpty_frame_witness :
    (CheckHomeConfigIsEmpty "hc" ⟨none, []⟩ =
      { file := some ⟨"hc", "", defaultUpdateCommand, []⟩,
        writes := [⟨"hc", "", defaultUpdateCommand, []⟩] }) ∧
    (CheckHomeConfigIsEmpty "hc" ⟨some ⟨"hc", "a", "u", [⟨"a", "pa"⟩]⟩, []⟩ =
      ⟨some ⟨"hc", "a", "u", [⟨"a", "pa"⟩]⟩, []⟩) :=
  ⟨(checkHomeConfigIsEmpty_frame "hc" ⟨none, []⟩).1 rfl,
   (checkHomeConfigIsEmpty_frame "hc" ⟨some ⟨"hc", "a", "u", [⟨"a", "pa"⟩]⟩, []⟩).2
     rfl⟩

/-- C9: the HomeConfig layer does not enforce workspace-name uniqueness —
`LoadHomeConfig` accepts any document (duplicate names included) without
validation, `AddWorkspace` appends unconditionally even when the name is
already present, and on a registry with duplicates both `findWorkspace` and
`GetCurrentWsPath` resolve to the entry occurring first in the sequence. -/
theorem homeConfig_duplicates_first_occurrence_wins
    (cp n wsp : String) (d : Disk) (doc hc : HomeConfig)
    (pre suf : List HomeConfigItem)
    (hload : d.file = some doc)
    (hsplit : hc.Workspaces = pre ++ ⟨n, wsp⟩ :: suf)
    (hpre : ∀ x ∈ pre, x.Name ≠ n) :
    (LoadHomeConfig cp d = .ok { doc with Path := cp }) ∧
    (∀ (hc' : HomeConfig) (d' : Disk),
      ((hc'.AddWorkspace n wsp d').1).Workspaces = hc'.Workspaces ++ [⟨n, wsp⟩]) ∧
    (hc.findWorkspace n = some ⟨n, wsp⟩) ∧
    (hc.CurrentWorkspace = n → n ≠ "" → hc.GetCurrentWsPath = .ok wsp) := by
  have hfind : hc.Workspaces.find? (fun w => w.Name == n) = some ⟨n, wsp⟩ := by
    rw [hsplit]
    clear hsplit
    induction pre with
    | nil => simp
    | cons x xs ih =>
      have hx : (x.Name == n) = false := by
        simpa using hpre x (List.mem_cons_self x xs)
      have ihs : (xs ++ ⟨n, wsp⟩ :: suf).find? (fun w => w.Name == n) =
          some ⟨n, wsp⟩ :=
        ih (fun y hy => hpre y (List.mem_cons_of_mem x hy))
      simpa [List.find?, hx] using ihs
  refine ⟨?_, ?_, ?_, ?_⟩
  · unfold LoadHomeConfig
    rw [hload]
  · intro hc' d'
    rfl
  · exact hfind
  · intro hcn hne
    unfold HomeConfig.GetCurrentWsPath
    rw [hcn]
    have hb : (n == "") = false := by
      simpa using hne
    simp only [hb, Bool.false_eq_true, if_false, hfind]

/-- C9 witness: a registry holding two entries named `a`; lookup and current
path resolution both return the first, and the append is unconditional. -/
theorem homeConfig_duplicates_first_occurrence_wins_witness :
    (LoadHomeConfig "hc" ⟨some ⟨"x", "a", "u", [⟨"a", "p1"⟩, ⟨"a", "p2"⟩]⟩, []⟩ =
      .ok ⟨"hc", "a", "u", [⟨"a", "p1"⟩, ⟨"a", "p2"⟩]⟩) ∧
    (∀ (hc' : HomeConfig) (d' : Disk),
      ((hc'.AddWorkspace "a" "p1" d').1).Workspaces =
        hc'.Workspaces ++ [⟨"a", "p1"⟩]) ∧
    (HomeConfig.findWorkspace ⟨"hc", "a", "u", [⟨"a", "p1"⟩, ⟨"a", "p2"⟩]⟩ "a" =
      some ⟨"a", "p1"⟩) ∧
    (HomeConfig.GetCurrentWsPath ⟨"hc", "a", "u", [⟨"a", "p1"⟩, ⟨"a", "p2"⟩]⟩ =
      .ok "p1") := by
  have h := homeConfig_duplicates_first_occurrence_wins "hc" "a" "p1"
    ⟨some ⟨"x", "a", "u", [⟨"a", "p1"⟩, ⟨"a", "p2"⟩]⟩, []⟩
    ⟨"x", "a", "u", [⟨"a", "p1"⟩, ⟨"a", "p2"⟩]⟩
    ⟨"hc", "a", "u", [⟨"a", "p1"⟩, ⟨"a", "p2"⟩]⟩
    [] [⟨"a", "p2"⟩] rfl rfl (by simp)
  exact ⟨h.1, h.2.1, h.2.2.1, h.2.2.2 rfl (by decide)⟩

/-- C10: in `CmdWorkspaceAdd` and `CmdWorkspaceSelect`, the home-config file
is ensured (and a default document created when absent) before the argument
count is checked, so a wrong-arity invocation on a missing file still leaves
a freshly written default document behind together with its write — the
arity error is not atomic with respect to on-disk state. -/
theorem wrongArity_still_creates_homeConfig
    (p : String) (argsA argsS : List String) (d : Disk)
    (hfile : d.file = none)
    (hA : argsA.length ≠ 2) (hS : argsS.length ≠ 1) :
    (CmdWorkspaceAdd p argsA d =
      (.error "command requires exactly 2 arguments",
        { file := some ⟨p, "", defaultUpdateCommand, []⟩,
          writes := d.writes ++ [⟨p, "", defaultUpdateCommand, []⟩] })) ∧
    (CmdWorkspaceSelect p argsS d =
      (.error "command requires exactly 1 argument",
        { file := some ⟨p, "", defaultUpdateCommand, []⟩,
          writes := d.writes ++ [⟨p, "", defaultUpdateCommand, []⟩] })) := by
  constructor
  · unfold CmdWorkspaceAdd checkAndLoadHC CheckHomeConfigIsEmpty LoadHomeConfig
      SaveHomeConfig
    simp [hfile, hA]
  · unfold CmdWorkspaceSelect checkAndLoadHC CheckHomeConfigIsEmpty LoadHomeConfig
      SaveHomeConfig
    simp [hfile, hS]

/-- C10 witness: zero-argument invocations on an absent file create the
default document as a side effect of the arity error. -/
theorem wrongArity_still_creates_homeConfig_witness :
    (CmdWorkspaceAdd "hc" [] ⟨none, []⟩ =
      (.error "command requires exactly 2 arguments",
        { file := some ⟨"hc", "", defaultUpdateCommand, []⟩,
          writes := [⟨"hc", "", defaultUpdateCommand, []⟩] })) ∧
    (CmdWorkspaceSelect "hc" [] ⟨none, []⟩ =
      (.error "command requires exactly 1 argument",
        { file := some ⟨"hc", "", defaultUpdateCommand, []⟩,
          writes := [⟨"hc", "", defaultUpdateCommand, []⟩] })) :=
  wrongArity_still_creates_homeConfig "hc" [] [] ⟨none, []⟩ rfl
    (by decide) (by decide)

/-- C1 (code bug, failing input): in the workspace holding module `api-cli`
hosted in service `api` with exec path `app/bin`, invoking `exec` with the
explicit `--svc api-cli` does substitute the hosting service `api`, but the
dispatched working directory stays unset (`none`) instead of the module's
rendered exec path: the Go statement `mdl, err := cfg.FindModuleByName(...)`
shadows the outer `mdl`, so the `if mdl != nil` working-directory assignment
never fires on this path. -/
theorem cmdServiceExec_moduleName_workingDir_unset :
    (MainConfig.FindModuleByName
        ⟨[⟨"api", ["r", "api"], []⟩], [⟨"api-cli", "api", ["app", "bin"]⟩],
          ["elsewhere"]⟩ "api-cli" =
      .ok ⟨"api-cli", "api", ["app", "bin"]⟩) ∧
    (MainConfig.renderPath
        ⟨[⟨"api", ["r", "api"], []⟩], [⟨"api-cli", "api", ["app", "bin"]⟩],
          ["elsewhere"]⟩ ["app", "bin"] = .ok ["app", "bin"]) ∧
    (CmdServiceExecResolve
        ⟨[⟨"api", ["r", "api"], []⟩], [⟨"api-cli", "api", ["app", "bin"]⟩],
          ["elsewhere"]⟩ "api-cli" =
      .ok ("api", none)) :=
  ⟨rfl, rfl, rfl⟩

/-- C2 (counterexample): with service `web` rooted at `r/web`, module
`api-cli` (hosted in `api`) declaring exec path `r/web`, and working
directory `r/web`, a service does match the working directory — yet the
`exec` resolution selects the module's hosting service `api`, not `web`:
modules are consulted first, refuting the claim that services are preferred
and modules consulted only when no service matches. -/
theorem cmdServiceExec_service_not_preferred :
    (MainConfig.FindServiceByPath
        ⟨[⟨"web", ["r", "web"], []⟩], [⟨"api-cli", "api", ["r", "web"]⟩],
          ["r", "web"]⟩ = .ok "web") ∧
    (CmdServiceExecResolve
        ⟨[⟨"web", ["r", "web"], []⟩], [⟨"api-cli", "api", ["r", "web"]⟩],
          ["r", "web"]⟩ "" = .ok ("api", some ["r", "web"])) ∧
    (CmdServiceExecResolve
        ⟨[⟨"web", ["r", "web"], []⟩], [⟨"api-cli", "api", ["r", "web"]⟩],
          ["r", "web"]⟩ "" ≠ .ok ("web", none)) := by
  refine ⟨rfl, rfl, ?_⟩
  decide

/-- C2 (amended): when `exec` is invoked without an explicit name, path-based
resolution prefers modules over services — if a module's exec path matches
the working directory the module's hosting service is selected (with the
module's rendered exec path as working directory) even when a service also
matches, and services are consulted only when no module matches. -/
theorem cmdServiceExec_prefers_modules (cfg : MainConfig) :
    (∀ m, cfg.FindModuleByPath = .ok m →
      CmdServiceExecResolve cfg "" = .ok (m.HostedIn, some m.ExecPath)) ∧
    (∀ e s, cfg.FindModuleByPath = .error e → cfg.FindServiceByPath = .ok s →
      CmdServiceExecResolve cfg "" = .ok (s, none)) := by
  constructor
  · intro m hm
    unfold CmdServiceExecResolve
    simp [hm, MainConfig.renderPath]
  · intro e s hm hs
    unfold CmdServiceExecResolve
    simp [hm, hs]

/-- C2 (amended) witness: the counterexample configuration instantiates both
branches — a matching module wins over the matching service, and a
module-free configuration falls back to the service. -/
theorem cmdServiceExec_prefers_modules_witness :
    (CmdServiceExecResolve
        ⟨[⟨"web", ["r", "web"], []⟩], [⟨"api-cli", "api", ["r", "web"]⟩],
          ["r", "web"]⟩ "" = .ok ("api", some ["r", "web"])) ∧
    (CmdServiceExecResolve ⟨[⟨"web", ["r", "web"], []⟩], [], ["r", "web"]⟩ "" =
      .ok ("web", none)) :=
  ⟨(cmdServiceExec_prefers_modules
      ⟨[⟨"web", ["r", "web"], []⟩], [⟨"api-cli", "api", ["r", "web"]⟩],
        ["r", "web"]⟩).1 ⟨"api-cli", "api", ["r", "web"]⟩ (by decide),
   (cmdServiceExec_prefers_modules
      ⟨[⟨"web", ["r", "web"], []⟩], [], ["r", "web"]⟩).2
     "module not found by path" "web" (by decide) (by decide)⟩

/-- Characterization of the named-target loop: the dispatched names are the
given names up to and including the first failing one, and the outcome is
success exactly when every per-name call succeeds. -/
theorem runSeq_spec (act : String → Except String Unit) (names : List String) :
    (runSeq act names).1 =
      names.take ((names.takeWhile (fun n => (act n).isOk)).length + 1) ∧
    ((runSeq act names).2 = .ok () ↔ ∀ n ∈ names, (act n).isOk) := by
  induction names with
  | nil => simp [runSeq]
  | cons n rest ih =>
    cases ha : act n with
    | error e =>
      have hok : (act n).isOk = false := by
        rw [ha]
        rfl
      refine ⟨?_, ?_⟩
      · simp only [runSeq, ha, List.takeWhile_cons, Except.isOk, Except.toBool, hok,
          Bool.false_eq_true, if_false, List.length_nil, List.take_succ_cons,
          List.take_zero]
      · simp only [runSeq, ha]
        constructor
        · intro h
          exact Except.noConfusion h
        · intro hall
          have hn := hall n (List.mem_cons_self n rest)
          rw [hok] at hn
          exact Bool.noConfusion hn
    | ok u =>
      have hok : (act n).isOk = true := by
        rw [ha]
        rfl
      cases u
      obtain ⟨ih1, ih2⟩ := ih
      refine ⟨?_, ?_⟩
      · simp only [runSeq, ha, List.takeWhile_cons, Except.isOk, Except.toBool, hok, if_true,
          List.length_cons, List.take_succ_cons]
        simpa using ih1
      · simp only [runSeq, ha]
        rw [List.forall_mem_cons]
        constructor
        · intro h
          exact ⟨hok, ih2.mp h⟩
        · rintro ⟨_, h⟩
          exact ih2.mpr h

/-- C3 (counterexample): on a manifest declaring no services, `stop --all`
does not process the (empty) list of all manifest service names — which
would dispatch nothing and succeed — but falls through to current-directory
path resolution and fails with its not-found error, refuting the claim's
`--all` clause as stated. -/
theorem cmdServiceStop_all_empty_manifest :
    (CmdServiceStopCore ⟨[], [], ["r"]⟩ (fun _ => .ok ()) true [] =
      ([], .error "service not found by path")) ∧
    (runSeq (fun _ => .ok ()) (MainConfig.GetAllSvcNames ⟨[], [], ["r"]⟩) =
      ([], .ok ())) ∧
    (CmdServiceStopCore ⟨[], [], ["r"]⟩ (fun _ => .ok ()) true [] ≠
      runSeq (fun _ => .ok ()) (MainConfig.GetAllSvcNames ⟨[], [], ["r"]⟩)) := by
  refine ⟨rfl, rfl, ?_⟩
  decide

/-- C3 (amended): target selection of `stop`/`destroy`.  With explicit names
the command is the in-order, abort-at-first-failure loop over exactly those
names; with `--all` on a manifest declaring at least one service it is the
same loop over every manifest service name in declaration order; with
`--all` on an empty manifest it behaves exactly like the bare invocation,
falling through to the path-resolved sole target; with neither names nor
`--all`, the path-resolved service is the sole target (and on resolution
failure nothing is dispatched).  None of the target lists consults
dependency edges. -/
theorem cmdServiceStop_target_selection
    (cfg : MainConfig) (act : String → Except String Unit)
    (args : List String) :
    (args ≠ [] →
      CmdServiceStopCore cfg act false args = runSeq act args ∧
      (runSeq act args).1 =
        args.take ((args.takeWhile (fun n => (act n).isOk)).length + 1) ∧
      ((runSeq act args).2 = .ok () ↔ ∀ n ∈ args, (act n).isOk)) ∧
    (cfg.services ≠ [] →
      CmdServiceStopCore cfg act true args =
        runSeq act (cfg.services.map (fun s => s.name))) ∧
    (cfg.services = [] →
      CmdServiceStopCore cfg act true args = CmdServiceStopCore cfg act false []) ∧
    (∀ svcName, cfg.FindServiceByPath = .ok svcName →
      CmdServiceStopCore cfg act false [] = runSeq act [svcName]) ∧
    (∀ e, cfg.FindServiceByPath = .error e →
      CmdServiceStopCore cfg act false [] = ([], .error e)) := by
    refine ⟨?_, ?_, ?_, ?_, ?_⟩
    · intro hne
      refine ⟨?_, (runSeq_spec act args).1, (runSeq_spec act args).2⟩
      unfold CmdServiceStopCore
      have hlen : 0 < args.length := List.length_pos.mpr hne
      simp [hlen]
    · intro hne
      unfold CmdServiceStopCore MainConfig.GetAllSvcNames
      have hlen : 0 < (cfg.services.map (fun s => s.name)).length := by
        rw [List.length_map]
        exact List.length_pos.mpr hne
      simp only [if_true, hlen, gt_iff_lt, if_pos]
    · intro hserv
      unfold CmdServiceStopCore MainConfig.GetAllSvcNames
      rw [hserv]
      rfl
    · intro svcName hfind
      unfold CmdServiceStopCore
      simp only [Bool.false_eq_true, if_false, List.length_nil, gt_iff_lt,
        lt_self_iff_false, hfind]
      cases ha : act svcName with
      | error e => simp [runSeq, ha]
      | ok u =>
        cases u
        simp [runSeq, ha]
    · intro e hfind
      unfold CmdServiceStopCore
      simp only [Bool.false_eq_true, if_false, List.length_nil, gt_iff_lt,
        lt_self_iff_false, hfind]

/-- C3 witness: a three-service manifest; explicit names dispatch in the
given order aborting at the failing `b`; `--all` dispatches every manifest
name in declaration order; with neither, the path-resolved service is the
sole dispatched target; on an empty manifest `--all` coincides with the bare
invocation. -/
theorem cmdServiceStop_target_selection_witness :
    (CmdServiceStopCore
        ⟨[⟨"web", ["r", "web"], [⟨"db", "default"⟩]⟩, ⟨"worker", ["r", "wk"], []⟩,
          ⟨"db", ["r", "db"], []⟩], [], ["r", "wk"]⟩
        (fun n => if n == "b" then .error "stop failed" else .ok ())
        false ["a", "b", "c"] =
      (["a", "b"], .error "stop failed")) ∧
    (CmdServiceStopCore
        ⟨[⟨"web", ["r", "web"], [⟨"db", "default"⟩]⟩, ⟨"worker", ["r", "wk"], []⟩,
          ⟨"db", ["r", "db"], []⟩], [], ["r", "wk"]⟩
        (fun n => if n == "b" then .error "stop failed" else .ok ())
        true [] =
      (["web", "worker", "db"], .ok ())) ∧
    (CmdServiceStopCore
        ⟨[⟨"web", ["r", "web"], [⟨"db", "default"⟩]⟩, ⟨"worker", ["r", "wk"], []⟩,
          ⟨"db", ["r", "db"], []⟩], [], ["r", "wk"]⟩
        (fun n => if n == "b" then .error "stop failed" else .ok ())
        false [] =
      (["worker"], .ok ())) ∧
    (CmdServiceStopCore ⟨[], [], ["r", "wk"]⟩
        (fun n => if n == "b" then .error "stop failed" else .ok ()) true [] =
      CmdServiceStopCore ⟨[], [], ["r", "wk"]⟩
        (fun n => if n == "b" then .error "stop failed" else .ok ()) false []) := by
  have h := cmdServiceStop_target_selection
    ⟨[⟨"web", ["r", "web"], [⟨"db", "default"⟩]⟩, ⟨"worker", ["r", "wk"], []⟩,
      ⟨"db", ["r", "db"], []⟩], [], ["r", "wk"]⟩
    (fun n => if n == "b" then .error "stop failed" else .ok ())
  have h0 := cmdServiceStop_target_selection ⟨[], [], ["r", "wk"]⟩
    (fun n => if n == "b" then .error "stop failed" else .ok ())
  refine ⟨?_, ?_, ?_, ?_⟩
  · rw [(h ["a", "b", "c"]).1 (by decide) |>.1]
    decide
  · rw [(h []).2.1 (by decide)]
    decide
  · rw [(h []).2.2.2.1 "worker" (by decide)]
    decide
  · exact (h0 []).2.2.1 rfl

/-- Helper: an error of the dependency-list visit originates at some listed
dependency. -/
theorem visitList_error_mem (v : String → Except PlanError (List String))
    (l : List String) (e : PlanError) (h : visitList v l = .error e) :
    ∃ d ∈ l, v d = .error e := by
  induction l with
  | nil => exact absurd h (by simp [visitList])
  | cons d ds ih =>
    simp only [visitList] at h
    split at h
    next e' hv =>
      cases h
      exact ⟨d, List.mem_cons_self d ds, hv⟩
    next l1 hv =>
      split at h
      next e' hrest =>
        cases h
        obtain ⟨d', hd', hv'⟩ := ih hrest
        exact ⟨d', List.mem_cons_of_mem d hd', hv'⟩
      next l2 hrest => exact Except.noConfusion h

/-- Helper: a successful dependency-list visit means every listed dependency
was visited successfully. -/
theorem visitList_ok_mem (v : String → Except PlanError (List String))
    (l : List String) (r : List String) (h : visitList v l = .ok r) :
    ∀ d ∈ l, ∃ r', v d = .ok r' := by
  induction l generalizing r with
  | nil =>
    intro d hd
    exact absurd hd (List.not_mem_nil d)
  | cons d0 ds ih =>
    simp only [visitList] at h
    split at h
    next e hv => exact Except.noConfusion h
    next l1 hv =>
      split at h
      next e hrest => exact Except.noConfusion h
      next l2 hrest =>
        intro d hd
        rcases List.mem_cons.mp hd with rfl | hd'
        · exact ⟨l1, hv⟩
        · exact ih l2 hrest d hd'

/-- Helper: inverting a successful visit — the node is not on the path, is a
declared name, and its dependency list was visited successfully with the node
pushed onto the path. -/
theorem visitDeps_ok_inv (deps : String → List String) (names : List String)
    (fuel : Nat) (path : List String) (n : String) (l : List String)
    (h : visitDeps deps names (fuel + 1) path n = .ok l) :
    n ∉ path ∧ n ∈ names ∧
      ∃ ls, visitList (visitDeps deps names fuel (n :: path)) (deps n) = .ok ls := by
  simp only [visitDeps] at h
  by_cases hp : n ∈ path
  · rw [if_pos hp] at h
    exact Except.noConfusion h
  · rw [if_neg hp] at h
    by_cases hn : n ∈ names
    · rw [if_pos hn] at h
      refine ⟨hp, hn, ?_⟩
      split at h
      next e hv => exact Except.noConfusion h
      next ls hv => exact ⟨ls, hv⟩
    · rw [if_neg hn] at h
      exact Except.noConfusion h

/-- Helper: a successful visit descends successfully (with one fuel unit
less and the node on the path) into every dependency of the node. -/
theorem visitDeps_ok_descend (deps : String → List String) (names : List String)
    (fuel : Nat) (path : List String) (n : String) (l : List String)
    (h : visitDeps deps names fuel path n = .ok l) :
    n ∉ path ∧
      ∀ d ∈ deps n, ∃ l', visitDeps deps names (fuel - 1) (n :: path) d = .ok l' := by
  cases fuel with
  | zero => exact absurd h (by simp [visitDeps])
  | succ f =>
    obtain ⟨hp, hn, ls, hv⟩ := visitDeps_ok_inv deps names f path n l h
    exact ⟨hp, fun d hd => visitList_ok_mem _ _ _ hv d hd⟩

/-- Helper: success propagates along reachability, preserving any marker
already on the traversal path. -/
theorem visitDeps_reach_ok_mem (deps : String → List String) (names : List String)
    {a b : String} (hr : Reaches deps a b) :
    ∀ (fuel : Nat) (path : List String) (m : String),
      (∃ l, visitDeps deps names fuel path a = .ok l) → m ∈ path →
      ∃ fuel' path' l', visitDeps deps names fuel' path' b = .ok l' ∧ m ∈ path' := by
  induction hr with
  | refl n =>
    intro fuel path m h hm
    obtain ⟨l, hl⟩ := h
    exact ⟨fuel, path, l, hl, hm⟩
  | step x y z hab hbc ih =>
    intro fuel path m h hm
    obtain ⟨l, hl⟩ := h
    obtain ⟨hp, hdesc⟩ := visitDeps_ok_descend deps names fuel path x l hl
    obtain ⟨l', hl'⟩ := hdesc y hab
    exact ih (fuel - 1) (x :: path) m ⟨l', hl'⟩ (List.mem_cons_of_mem x hm)

/-- Helper: success propagates along reachability. -/
theorem visitDeps_reach_ok (deps : String → List String) (names : List String)
    {a b : String} (hr : Reaches deps a b) :
    ∀ (fuel : Nat) (path : List String),
      (∃ l, visitDeps deps names fuel path a = .ok l) →
      ∃ fuel' path' l', visitDeps deps names fuel' path' b = .ok l' := by
  induction hr with
  | refl n =>
    intro fuel path h
    obtain ⟨l, hl⟩ := h
    exact ⟨fuel, path, l, hl⟩
  | step x y z hab hbc ih =>
    intro fuel path h
    obtain ⟨l, hl⟩ := h
    obtain ⟨hp, hdesc⟩ := visitDeps_ok_descend deps names fuel path x l hl
    obtain ⟨l', hl'⟩ := hdesc y hab
    exact ih (fuel - 1) (x :: path) ⟨l', hl'⟩

/-- Helper: a node lying on a dependency cycle can never be visited
successfully — following the cycle returns to the node while it is still on
the traversal path. -/
theorem visitDeps_no_ok_on_cycle (deps : String → List String)
    (names : List String) {m d : String} (hd : d ∈ deps m)
    (hr : Reaches deps d m) :
    ∀ (fuel : Nat) (path : List String) (l : List String),
      visitDeps deps names fuel path m ≠ .ok l := by
  intro fuel path l h
  obtain ⟨hp, hdesc⟩ := visitDeps_ok_descend deps names fuel path m l h
  obtain ⟨l', hl'⟩ := hdesc d hd
  obtain ⟨f', p', l'', h'', hm⟩ :=
    visitDeps_reach_ok_mem deps names hr (fuel - 1) (m :: path) m ⟨l', hl'⟩
      (List.mem_cons_self m path)
  cases f' with
  | zero => exact absurd h'' (by simp [visitDeps])
  | succ f0 =>
    simp only [visitDeps] at h''
    rw [if_pos hm] at h''
    exact Except.noConfusion h''

/-- Helper: with fuel at least `names.length + 1 - path.length` and a
duplicate-free path of declared names, the traversal never exhausts fuel —
the recursion depth is genuinely bounded. -/
theorem visitDeps_no_fuelExhausted (deps : String → List String)
    (names : List String) :
    ∀ (fuel : Nat) (path : List String) (n : String),
      path.Nodup → (∀ x ∈ path, x ∈ names) →
      names.length + 1 ≤ fuel + path.length →
      visitDeps deps names fuel path n ≠ .error .fuelExhausted := by
  intro fuel
  induction fuel with
  | zero =>
    intro path n hnd hsub hlen h
    have hle : path.length ≤ names.length :=
      (List.Nodup.subperm hnd (by intro x hx; exact hsub x hx)).length_le
    omega
  | succ f ih =>
    intro path n hnd hsub hlen h
    simp only [visitDeps] at h
    by_cases hp : n ∈ path
    · rw [if_pos hp] at h
      exact PlanError.noConfusion (Except.error.inj h)
    · rw [if_neg hp] at h
      by_cases hn : n ∈ names
      · rw [if_pos hn] at h
        split at h
        next e hv =>
          have he := Except.error.inj h
          subst he
          obtain ⟨d, hd, hvd⟩ := visitList_error_mem _ _ _ hv
          refine ih (n :: path) d (List.nodup_cons.mpr ⟨hp, hnd⟩) ?_ ?_ hvd
          · intro x hx
            rcases List.mem_cons.mp hx with rfl | hx'
            · exact hn
            · exact hsub x hx'
          · rw [List.length_cons]
            omega
        next ls hv => exact Except.noConfusion h
      · rw [if_neg hn] at h
        exact PlanError.noConfusion (Except.error.inj h)

/-- Helper: when every dependency of a declared service is declared, the
traversal of a declared service never reports `serviceNotFound`. -/
theorem visitDeps_no_notFound (deps : String → List String)
    (names : List String)
    (hwf : ∀ n ∈ names, ∀ d ∈ deps n, d ∈ names) :
    ∀ (fuel : Nat) (path : List String) (n c : String), n ∈ names →
      visitDeps deps names fuel path n ≠ .error (.serviceNotFound c) := by
  intro fuel
  induction fuel with
  | zero =>
    intro path n c hn h
    exact PlanError.noConfusion (Except.error.inj h)
  | succ f ih =>
    intro path n c hn h
    simp only [visitDeps] at h
    by_cases hp : n ∈ path
    · rw [if_pos hp] at h
      exact PlanError.noConfusion (Except.error.inj h)
    · rw [if_neg hp, if_pos hn] at h
      split at h
      next e hv =>
        have he := Except.error.inj h
        subst he
        obtain ⟨d, hd, hvd⟩ := visitList_error_mem _ _ _ hv
        exact ih (n :: path) d c (hwf n hn d hd) hvd
      next ls hv => exact Except.noConfusion h

/-- C8: on a manifest whose traversed dependency edges all reference declared
services, whenever a dependency cycle is reachable from the target along the
traversed edges, the planner fails with a `cyclicDependency` error naming a
node of the cycle — it cannot exhaust its depth bound (termination) and never
emits a plan for such a graph. -/
theorem planStart_cycle_fails (cfg : MainConfig) (mode : String) (force : Bool)
    (running : String → Bool) (t : String)
    (hwf : ∀ n ∈ cfg.GetAllSvcNames,
      ∀ d ∈ serviceDeps cfg mode force running n, d ∈ cfg.GetAllSvcNames)
    (ht : t ∈ cfg.GetAllSvcNames)
    (hcyc : HasReachableCycle (serviceDeps cfg mode force running) t) :
    ∃ c, planStart cfg mode force running t = .error (.cyclicDependency c) := by
  obtain ⟨m, dd, hreach, hd, hback⟩ := hcyc
  have hfuel : cfg.GetAllSvcNames.length + 1 ≤
      (cfg.services.length + 1) + ([] : List String).length := by
    simp [MainConfig.GetAllSvcNames]
  cases h : planStart cfg mode force running t with
  | ok l =>
    exfalso
    have hok : ∃ l, visitDeps (serviceDeps cfg mode force running)
        cfg.GetAllSvcNames (cfg.services.length + 1) [] t = .ok l := ⟨l, h⟩
    obtain ⟨f', p', l', hl'⟩ :=
      visitDeps_reach_ok (serviceDeps cfg mode force running)
        cfg.GetAllSvcNames hreach (cfg.services.length + 1) [] hok
    exact visitDeps_no_ok_on_cycle (serviceDeps cfg mode force running)
      cfg.GetAllSvcNames hd hback f' p' l' hl'
  | error e =>
    cases e with
    | cyclicDependency c => exact ⟨c, rfl⟩
    | serviceNotFound c =>
      exact absurd h (visitDeps_no_notFound (serviceDeps cfg mode force running)
        cfg.GetAllSvcNames hwf (cfg.services.length + 1) [] t c ht)
    | fuelExhausted =>
      exact absurd h (visitDeps_no_fuelExhausted
        (serviceDeps cfg mode force running) cfg.GetAllSvcNames
        (cfg.services.length + 1) [] t List.nodup_nil
        (fun x hx => absurd hx (List.not_mem_nil x)) hfuel)

/-- C8 witness: a concrete two-node dependency cycle `a → b → a` with the
default mode; planning `a` fails with a cyclic-dependency error. -/
theorem planStart_cycle_fails_witness :
    ∃ c, planStart
        ⟨[⟨"a", ["a"], [⟨"b", "default"⟩]⟩, ⟨"b", ["b"], [⟨"a", "default"⟩]⟩],
          [], []⟩ "default" true (fun _ => false) "a" =
      .error (.cyclicDependency c) :=
  planStart_cycle_fails
    ⟨[⟨"a", ["a"], [⟨"b", "default"⟩]⟩, ⟨"b", ["b"], [⟨"a", "default"⟩]⟩],
      [], []⟩ "default" true (fun _ => false) "a"
    (by decide) (by decide)
    ⟨"a", "b", Reaches.refl "a", by decide,
      Reaches.step "b" "a" "a" (by decide) (Reaches.refl "a")⟩

end Elc
